import Mathlib

/-!
Verification of the Concepto DaVinci Resolve sync plugin
(`src/davinci-plugin/concepto_resolve_sync_gui.py`).

The Python code is shallowly embedded: Python floats become `ℚ`,
Python ints become `ℤ`/`ℕ`, Python dicts become association lists,
and the host editor's scripting surface is modelled by explicit
parameters describing what the host reports/returns.
-/

namespace Concepto

/-! ## Python numeric primitives -/

/-- Python `int(x)` on a float/rational: truncation toward zero. -/
def pyTrunc (q : ℚ) : ℤ := if 0 ≤ q then ⌊q⌋ else ⌈q⌉

/-- Python 3 `round(x)` with no digits: round half to even (banker's rounding). -/
def pyRound (q : ℚ) : ℤ :=
  let n := ⌊q⌋
  let r := q - n
  if r < 1/2 then n
  else if 1/2 < r then n + 1
  else if Even n then n else n + 1

/-- Python `a % b` on floats (sign follows the divisor): `a - b * floor (a / b)`. -/
def pyMod (a b : ℚ) : ℚ := a - b * ⌊a / b⌋

/-- Python `a // b` on floats: `floor (a / b)` (as an integer value). -/
def pyFloorDiv (a b : ℚ) : ℤ := ⌊a / b⌋

/-! ## Data model: shots and clip identities -/

/-- The fields of a service shot record that the start-time / identity logic reads:
`id`, the `order` row key, `shotNumber`, and the raw `duration` in seconds
(`float(shot.get("duration") or 0)` is applied by the callers, so `duration`
here is already the parsed rational, possibly `0`). -/
structure Shot where
  id : String
  order : ℚ
  shotNumber : ℚ
  duration : ℚ
deriving DecidableEq

/-- `clip_id = f"{seg.get('id')}-{shot.get('id')}-{idx}"`. -/
def clipId (segId shotId : String) (idx : ℕ) : String :=
  segId ++ "-" ++ shotId ++ "-" ++ toString idx

/-- Sort key used by `sorted(shots, key=lambda s: (order, shotNumber))`. -/
def shotKey (s : Shot) : ℚ × ℚ := (s.order, s.shotNumber)

/-- Lexicographic `≤` on Python 2-tuples of floats. -/
def keyLE (a b : ℚ × ℚ) : Bool := a.1 < b.1 || (a.1 == b.1 && a.2 ≤ b.2)

/-- Stable insertion used to model Python's stable `sorted`: a new element goes
after every already-placed element whose key is `≤` its own. -/
def insShot (x : Shot) : List Shot → List Shot
  | [] => [x]
  | y :: ys => if keyLE (shotKey y) (shotKey x) then y :: insShot x ys else x :: y :: ys

/-- `sorted(shots, key=lambda s: (float(s.order), float(s.shotNumber)))`
(stable, ascending). -/
def sortShots (shots : List Shot) : List Shot :=
  shots.foldl (fun acc x => insShot x acc) []

/-! ## Start-Time Resolver (`_compute_visual_start_times`) -/

/-- Loop of the PySide `MainWindow._compute_visual_start_times`
(lines 1833–1848): enumerate the raw shot array; an override is used as
given, otherwise the cursor; then `current_end = max(current_end, start + duration)`. -/
def pySideGo (ov : List (String × ℚ)) (segId : String) : ℕ → ℚ → List Shot → List (String × ℚ)
  | _, _, [] => []
  | idx, cur, sh :: rest =>
    let cid := clipId segId sh.id idx
    let start := (ov.lookup cid).getD cur
    (cid, start) :: pySideGo ov segId (idx + 1) (max cur (start + sh.duration)) rest

/-- PySide `MainWindow._compute_visual_start_times(seg, shots)`. -/
def computeVisualStartTimes (ov : List (String × ℚ)) (segId : String) (shots : List Shot) :
    List (String × ℚ) :=
  pySideGo ov segId 0 0 shots

/-- Loop of the tkinter `MainWindowTk._compute_visual_start_times`
(lines 4649–4657): same override/cursor choice, but the cursor update is
`current = max(current, start) + duration`. -/
def tkGo (ov : List (String × ℚ)) (segId : String) : ℕ → ℚ → List Shot → List (String × ℚ)
  | _, _, [] => []
  | idx, cur, sh :: rest =>
    let cid := clipId segId sh.id idx
    let start := (ov.lookup cid).getD cur
    (cid, start) :: tkGo ov segId (idx + 1) (max cur start + sh.duration) rest

/-- tkinter `MainWindowTk._compute_visual_start_times(seg, shots)`. -/
def computeVisualStartTimesTk (ov : List (String × ℚ)) (segId : String) (shots : List Shot) :
    List (String × ℚ) :=
  tkGo ov segId 0 0 shots

/-- Reference start-time algorithm, written from the spec's words (§4.1):
cursor `current_end` starts at `0.0`; a shot's start is the override for its
clip identity when one exists (used as given), otherwise `current_end`; after
each shot `current_end = max(current_end, start + duration)` with the raw
(possibly zero) duration. -/
def referenceGo (ov : List (String × ℚ)) (segId : String) : ℕ → ℚ → List Shot → List (String × ℚ)
  | _, _, [] => []
  | idx, cur, sh :: rest =>
    let cid := clipId segId sh.id idx
    let start := match ov.lookup cid with
      | some v => v
      | none => cur
    (cid, start) :: referenceGo ov segId (idx + 1) (max cur (start + sh.duration)) rest

/-- Reference `resolve_start_times(segment, shots_in_raw_order)` from the spec. -/
def referenceStartTimes (ov : List (String × ℚ)) (segId : String) (shots : List Shot) :
    List (String × ℚ) :=
  referenceGo ov segId 0 0 shots

/-- Start times of a no-override segment as a cursor scan: each shot starts at
the cursor, and the cursor advances to `max cur (cur + duration)`. -/
def seqStarts (cur : ℚ) : List ℚ → List ℚ
  | [] => []
  | d :: ds => cur :: seqStarts (max cur (cur + d)) ds

/-! ## Timeline Placement Engine frame arithmetic (`resolve_place_on_timeline`) -/

/-- The frame quadruple `resolve_place_on_timeline` computes before calling any
host placement primitive. -/
structure Frames where
  record : ℤ
  startF : ℤ
  endF : ℤ
  durF : ℤ
deriving DecidableEq

/-- Lines 1149–1197 of `resolve_place_on_timeline`: the 1.0-second floor for
`duration_seconds < 0.1`, then
`record_frame = max(0, int(round(record_seconds * fps))) + timeline_start_frame`,
`start_frame = max(0, int(round(offset_seconds * fps)))`,
`duration_frames = max(1, int(round(duration_seconds * fps)))`,
`end_frame = start_frame + duration_frames`, and the
`if end_frame <= start_frame` re-adjustment to `int(fps)` frames. -/
def initFrames (fps recS durS offS : ℚ) (tlStart : ℤ) : Frames :=
  let durS' := if durS < 1/10 then 1 else durS
  let record := max 0 (pyRound (recS * fps)) + tlStart
  let startF := max 0 (pyRound (offS * fps))
  let durF := max 1 (pyRound (durS' * fps))
  let endF := startF + durF
  if endF ≤ startF then ⟨record, startF, startF + pyTrunc fps, pyTrunc fps⟩
  else ⟨record, startF, endF, durF⟩

/-- Lines 1228–1239: clamping against the clip's reported source duration.
`clipDur = none` models a host where no (truthy) `Duration` property could be
parsed; `some d` with `d ≠ 0` models a parsed `clip_duration_frames = d`
(Python's `if clip_duration_frames:` is false for `0`). -/
def clampFrames (fps : ℚ) (clipDur : Option ℤ) (fr : Frames) : Frames :=
  match clipDur with
  | none => fr
  | some d =>
    if d = 0 then fr
    else
      let endF := if d < fr.endF then d else fr.endF
      if endF ≤ fr.startF then
        let e := max (pyTrunc fps) (min d (pyTrunc (fps * 3)))
        ⟨fr.record, 0, e, e⟩
      else ⟨fr.record, fr.startF, endF, fr.durF⟩

/-- Lines 1243–1249: the final validation before the first host placement call
(`start_frame = 0`, `end_frame = int(fps)`, `record_frame = max(0, record_frame)`
whenever `end_frame <= start_frame` still holds). -/
def finalFrames (fps : ℚ) (fr : Frames) : Frames :=
  if fr.endF ≤ fr.startF then ⟨max 0 fr.record, 0, pyTrunc fps, pyTrunc fps⟩ else fr

/-- The frame quadruple in force at the point the first host placement
primitive is invoked, as a function of the inputs and of what the host
reports (frame rate, start frame, parsed source duration). -/
def placeFrames (fps recS durS offS : ℚ) (tlStart : ℤ) (clipDur : Option ℤ) : Frames :=
  finalFrames fps (clampFrames fps clipDur (initFrames fps recS durS offS tlStart))

/-! ## Build-loop overlap adjustment (`on_download_build`, lines 2103–2146) -/

/-- One existing item on video track 1, as the Build loop reads it back:
`GetStart`/`GetEnd` results, `none` when the frame could not be read. -/
abbrev ExistingItem := Option ℤ × Option ℤ

/-- Lines 2104–2105 target range, then the scan over `GetItemListInTrack("video", 1)`:
on the first item whose start and end are both readable and whose range
overlaps the target range, `start_sec` is moved to
`(ex_end - timeline_start_frame) / fps` and the scan breaks; otherwise the
resolved `start_sec` is kept.  The returned value is the `record_seconds`
that `resolve_place_on_timeline` is then called with. -/
def overlapAdjustGo (ts te : ℤ) (tlStart : ℤ) (fps startSec : ℚ) :
    List ExistingItem → ℚ
  | [] => startSec
  | (exS, exE) :: rest =>
    match exS, exE with
    | some es, some ee =>
      if ¬(te ≤ es ∨ ee ≤ ts) then (ee - tlStart) / fps
      else overlapAdjustGo ts te tlStart fps startSec rest
    | _, _ => overlapAdjustGo ts te tlStart fps startSec rest

/-- Record seconds handed to the Placement Engine by the Build loop for a shot
whose resolved start is `startSec` and placement duration `durSec`. -/
def buildRecordSeconds (startSec durSec fps : ℚ) (tlStart : ℤ)
    (existing : List ExistingItem) : ℚ :=
  let ts := pyRound (startSec * fps) + tlStart
  let te := ts + pyRound (durSec * fps)
  overlapAdjustGo ts te tlStart fps startSec existing

/-- Spec-side description of the Build-loop record time (used to state the
amended C6): the first existing item with readable start/end whose frame range
overlaps the target range determines the record time; with no such item the
resolver's start is used unchanged. -/
def overlapHit (ts te : ℤ) (it : ExistingItem) : Bool :=
  match it with
  | (some es, some ee) => !(te ≤ es || ts ≥ ee)
  | _ => false

/-- Spec-side record time for the amended C6. -/
def buildRecordSecondsSpec (startSec durSec fps : ℚ) (tlStart : ℤ)
    (existing : List ExistingItem) : ℚ :=
  let ts := pyRound (startSec * fps) + tlStart
  let te := ts + pyRound (durSec * fps)
  match existing.find? (overlapHit ts te) with
  | some (_, some ee) => (ee - tlStart) / fps
  | _ => startSec

/-! ## Subtitle codec: SRT generation (`to_srt_time`) and export arithmetic -/

/-- The four numeric fields of the `HH:MM:SS,mmm` timestamp emitted by
`to_srt_time(secs)` in `on_download_build` (lines 2282–2289):
`absolute_secs = secs + tl_start_sec`, then `int` truncations of the
floor-divisions/mods, with milliseconds truncated. -/
def toSrtParts (secs tlStartSec : ℚ) : ℤ × ℤ × ℤ × ℤ :=
  let a := secs + tlStartSec
  (pyFloorDiv a 3600, pyFloorDiv (pyMod a 3600) 60, pyTrunc (pyMod a 60),
    pyTrunc (pyMod a 1 * 1000))

/-- The absolute time, in seconds, that an `HH:MM:SS,mmm` SRT timestamp denotes. -/
def srtValue (p : ℤ × ℤ × ℤ × ℤ) : ℚ :=
  p.1 * 3600 + p.2.1 * 60 + p.2.2.1 + p.2.2.2 / 1000

/-- Export-direction conversion of `_collect_subtitle_entries` (line 830):
`rel_start_sec = (start_frame - int(tl_start_sec * fps)) / fps`. -/
def exportRelStart (startFrame : ℤ) (tlStartSec fps : ℚ) : ℚ :=
  (startFrame - pyTrunc (tlStartSec * fps)) / fps

/-- Export-direction conversion of `_collect_subtitle_entries` (line 831):
`dur_sec = dur_frame / fps`. -/
def exportDurSec (durFrame : ℤ) (fps : ℚ) : ℚ := (durFrame : ℚ) / fps

/-! ## Take-code extraction (`_extract_take_and_visual`, lines 753–759)

The two fixed regular expressions are embedded as character-level matchers
with Python's greedy (leftmost-scan) semantics, `\s` being ASCII whitespace. -/

/-- Python's `\s` class (ASCII part): space, tab, newline, carriage return,
vertical tab, form feed. -/
def isSpaceCh (c : Char) : Bool :=
  c = ' ' || c = '\t' || c = '\n' || c = '\r' || c = '\x0b' || c = '\x0c'

/-- Match of `\[?\s*(SC\d{2}T\d{2})\s*\]?` (case-insensitive) anchored at the
head of the list; returns the captured group.  The trailing `\s*\]?` is always
satisfiable, so only the bracket/space prefix and the 7-character code decide
the match. -/
def takeAt (cs : List Char) : Option String :=
  let cs1 := match cs with | '[' :: r => r | _ => cs
  let cs2 := cs1.dropWhile isSpaceCh
  match cs2 with
  | s :: c :: d1 :: d2 :: t :: d3 :: d4 :: _ =>
    if (s = 'S' || s = 's') && (c = 'C' || c = 'c') && d1.isDigit && d2.isDigit
        && (t = 'T' || t = 't') && d3.isDigit && d4.isDigit then
      some (String.mk [s, c, d1, d2, t, d3, d4])
    else none
  | _ => none

/-- `re.search(r"\[?\s*(SC\d{2}T\d{2})\s*\]?", content, re.IGNORECASE)`:
scan left to right, return the first position's capture. -/
def findTake : List Char → Option String
  | [] => none
  | c :: rest =>
    match takeAt (c :: rest) with
    | some t => some t
    | none => findTake rest

/-- Match of the substitution pattern
`\[?\s*SC\d{2}T\d{2}\s*\]?\s*-?\s*` (case-insensitive) anchored at the head;
returns the remainder after the matched span. -/
def subAt (cs : List Char) : Option (List Char) :=
  let cs1 := match cs with | '[' :: r => r | _ => cs
  let cs2 := cs1.dropWhile isSpaceCh
  match cs2 with
  | s :: c :: d1 :: d2 :: t :: d3 :: d4 :: rest =>
    if (s = 'S' || s = 's') && (c = 'C' || c = 'c') && d1.isDigit && d2.isDigit
        && (t = 'T' || t = 't') && d3.isDigit && d4.isDigit then
      let r1 := rest.dropWhile isSpaceCh
      let r2 := match r1 with | ']' :: rr => rr | _ => r1
      let r3 := r2.dropWhile isSpaceCh
      let r4 := match r3 with | '-' :: rr => rr | _ => r3
      some (r4.dropWhile isSpaceCh)
    else none
  | _ => none

/-- `re.sub(pattern, "", content)`: replace every non-overlapping match,
scanning left to right (fuelled by the list length; every match consumes at
least the 7 code characters, so the fuel suffices). -/
def subAll : ℕ → List Char → List Char
  | 0, cs => cs
  | _ + 1, [] => []
  | f + 1, c :: rest =>
    match subAt (c :: rest) with
    | some r => subAll f r
    | none => c :: subAll f rest

/-- Python `str.strip()` (ASCII whitespace). -/
def pyStrip (cs : List Char) : List Char :=
  ((cs.dropWhile isSpaceCh).reverse.dropWhile isSpaceCh).reverse

/-- `_extract_take_and_visual(content)`: search for the take pattern; on a hit,
return the uppercased capture plus the text with every occurrence of the
bracketed code and its trailing separator removed and stripped; otherwise
`(None, content.strip())`. -/
def extractTakeAndVisual (content : String) : Option String × String :=
  let cs := content.toList
  match findTake cs with
  | some t =>
    (some (String.mk (t.toList.map Char.toUpper)), String.mk (pyStrip (subAll cs.length cs)))
  | none => (none, String.mk (pyStrip cs))

/-! ## Placement strategy ladder (`resolve_place_on_timeline`, lines 1252–1470)

The host's behaviour on each attempted call is a parameter: whether the call
raised, whether it returned a falsy value (`False`/`None`), and the target
track's item count before and after the call (`none` when unreadable). -/

/-- Host behaviour of one `AppendToTimeline`-shaped call. -/
structure Attempt where
  raised : Bool
  falsy : Bool
  before : Option ℤ
  after : Option ℤ
deriving DecidableEq

/-- Success of one of the four dict-shaped `MediaPool.AppendToTimeline`
attempts (lines 1283–1351): no exception, a non-falsy result, and not the
"count did not increase" rejection (which only fires when both counts are
readable). -/
def dictOk (a : Attempt) : Bool :=
  !a.raised && !a.falsy &&
    !(match a.before, a.after with
      | some b, some aft => aft ≤ b
      | _, _ => false)

/-- Success of a list-style fallback (`InsertClips` at 1401, `Timeline.AppendToTimeline`
at 1414, the last-resort `MediaPool.AppendToTimeline` at 1439): no exception,
non-falsy result, and `before_n is None or after_n is None or after_n > before_n`. -/
def listOk (a : Attempt) : Bool :=
  !a.raised && !a.falsy &&
    (match a.before, a.after with
      | some b, some aft => b < aft
      | _, _ => true)

/-- Host behaviour of the `InsertClip` fallback (lines 1354–1395): whether the
method exists, whether anything in the block raised, whether a source file
path could be read off the media-pool item, and whether `InsertClip` returned
a truthy timeline item. -/
structure InsertClipTry where
  avail : Bool
  raised : Bool
  fileUrl : Bool
  retTruthy : Bool
deriving DecidableEq

/-- The `InsertClip` fallback places the clip iff the method exists, nothing
raised, a file path was found, and the call returned a truthy item. -/
def insertClipOk (i : InsertClipTry) : Bool :=
  i.avail && !i.raised && i.fileUrl && i.retTruthy

/-- Everything the host does across one `resolve_place_on_timeline` call. -/
structure LadderCfg where
  mpAppendAvail : Bool
  tlAppendAvail : Bool
  insertClipsAvail : Bool
  d1 : Attempt
  d2 : Attempt
  d3 : Attempt
  d4 : Attempt
  ic : InsertClipTry
  icl : Attempt
  tla : Attempt
  fin : Attempt
deriving DecidableEq

/-- Control flow of lines 1252–1470: the early missing-API raise, the four
dict attempts, `InsertClip`, `InsertClips`, `Timeline.AppendToTimeline`, the
plain append, and the final `RuntimeError`. -/
def placeLadder (_trackIndex : ℕ) (cfg : LadderCfg) : Except String Unit :=
  if !cfg.mpAppendAvail && !cfg.tlAppendAvail && !cfg.insertClipsAvail then
    .error "Resolve API missing AppendToTimeline/InsertClips; cannot place items on timeline."
  else if dictOk cfg.d1 then .ok ()
  else if dictOk cfg.d2 then .ok ()
  else if dictOk cfg.d3 then .ok ()
  else if dictOk cfg.d4 then .ok ()
  else if insertClipOk cfg.ic then .ok ()
  else if cfg.insertClipsAvail && listOk cfg.icl then .ok ()
  else if cfg.tlAppendAvail && listOk cfg.tla then .ok ()
  else if listOk cfg.fin then .ok ()
  else .error "All timeline placement methods failed."

/-- Whether some strategy of the ladder succeeded (the gated fallbacks count
only when their method is available, as in the source). -/
def anySucceeded (cfg : LadderCfg) : Bool :=
  dictOk cfg.d1 || dictOk cfg.d2 || dictOk cfg.d3 || dictOk cfg.d4
    || insertClipOk cfg.ic || (cfg.insertClipsAvail && listOk cfg.icl)
    || (cfg.tlAppendAvail && listOk cfg.tla) || listOk cfg.fin

/-- A host cannot answer calls on a method it does not expose: when
`MediaPool.AppendToTimeline` is absent, the dict attempts and the last-resort
append raise (`AttributeError`). -/
def LadderCfg.Coherent (cfg : LadderCfg) : Prop :=
  cfg.mpAppendAvail = false →
    cfg.d1.raised ∧ cfg.d2.raised ∧ cfg.d3.raised ∧ cfg.d4.raised ∧ cfg.fin.raised

/-- Per-shot placement of the Build orchestrator (lines 2148–2159): each
shot's placement call is wrapped in `try/except`, a failure is logged and the
loop continues.  Returns `(shots processed, placements failed)`. -/
def buildBatch (place : α → Except String Unit) : List α → ℕ × ℕ
  | [] => (0, 0)
  | sh :: rest =>
    let r := buildBatch place rest
    match place sh with
    | .ok _ => (r.1 + 1, r.2)
    | .error _ => (r.1 + 1, r.2 + 1)

/-- Whether a placement call ended in the raised error. -/
def ladderFails : Except String Unit → Bool
  | .error _ => true
  | .ok _ => false

/-! ## Bin/Folder Materializer (`resolve_ensure_bins`, lines 1081–1101)

The media pool is modelled as a flat creation-ordered list of folder records;
`GetSubFolderList` reflects every prior `AddSubFolder` (the claim's
hypothesis), which is exactly what this state embodies.  The root folder is
handle `0`; fresh handles come from a counter. -/

/-- One media-pool folder: its parent handle, name, and own handle. -/
structure FolderRec where
  parent : ℕ
  name : String
  id : ℕ
deriving DecidableEq

/-- Media-pool folder state. -/
structure Pool where
  folders : List FolderRec
  next : ℕ
deriving DecidableEq

/-- `parent.GetSubFolderList()`: the children of a folder in creation order. -/
def subFoldersOf (p : Pool) (parent : ℕ) : List FolderRec :=
  p.folders.filter (fun r => r.parent == parent)

/-- `media_pool.AddSubFolder(parent, name)`: create a child and return its handle. -/
def addSubFolder (p : Pool) (parent : ℕ) (name : String) : Pool × ℕ :=
  (⟨p.folders ++ [⟨parent, name, p.next⟩], p.next + 1⟩, p.next)

/-- The inner `find_or_create(parent, name)` of `resolve_ensure_bins`: return
the first child whose `GetName()` equals `name`, else `AddSubFolder`. -/
def findOrCreate (p : Pool) (parent : ℕ) (name : String) : Pool × ℕ :=
  match (subFoldersOf p parent).find? (fun r => r.name == name) with
  | some r => (p, r.id)
  | none => addSubFolder p parent name

/-- `resolve_ensure_bins(media_pool, root_name, segment_name, take_name)`:
find-or-create `Root / root_name / segment_name / take_name`, returning the
take folder handle (state-passing form). -/
def ensureBins (p : Pool) (rootName segName takeName : String) : Pool × ℕ :=
  let r1 := findOrCreate p 0 rootName
  let r2 := findOrCreate r1.1 r1.2 segName
  findOrCreate r2.1 r2.2 takeName

/-! ## Clip identities as computed by the three operations -/

/-- Identities keyed by the raw, unsorted shot array (`enumerate(shots_raw)`),
as used by `_compute_visual_start_times` (line 1836) and by the Push/Pull
`take_to_shot` maps (lines 2513 and 2751): `shot id ↦ clip identity`. -/
def rawClipIds (segId : String) (shots : List Shot) : List (String × String) :=
  shots.enum.map (fun p => (p.2.id, clipId segId p.2.id p.1))

/-- Identities as computed inside the Build loop (lines 1918–1959 and 2048):
`for idx, shot in enumerate(sorted_shots): clip_id = f"{seg}-{shot}-{idx}"`. -/
def buildClipIds (segId : String) (shots : List Shot) : List (String × String) :=
  (sortShots shots).enum.map (fun p => (p.2.id, clipId segId p.2.id p.1))

/-- The start seconds the Build loop uses for each shot (line 2049):
`float(start_times.get(clip_id, 0.0))` with `clip_id` built from the sorted
index, against the resolver map keyed by raw index. -/
def buildStartFor (ov : List (String × ℚ)) (segId : String) (shots : List Shot) :
    List (String × ℚ) :=
  let st := computeVisualStartTimes ov segId shots
  (sortShots shots).enum.map
    (fun p => (p.2.id, (st.lookup (clipId segId p.2.id p.1)).getD 0))

/-! # Theorems -/

/-! ## C1: clip identity indices in Build vs. Push/Pull -/

/-- Claim C1: every clip identity is `"<segmentId>-<shotId>-<rawIndex>"`, and in
particular the Build loop looks start times up by the raw-array index.  The
code contradicts this (and its own comments at lines 1834 and 1876): the Build
loop enumerates the row-key-sorted array.  For segment `"S"` with raw shots
`a (order 2, dur 2)` then `b (order 1, dur 3)`, shot `b` sorts to position 0,
the Build loop computes identity `"S-b-0"`, while its raw identity — the one
the resolver keyed, `"S-b-1"` — carries start `2.0`; the Build lookup misses
and falls back to `0.0`. -/
theorem c1_build_index_is_sorted_not_raw :
    buildClipIds "S" [⟨"a", 2, 0, 2⟩, ⟨"b", 1, 0, 3⟩] = [("b", "S-b-0"), ("a", "S-a-1")]
    ∧ rawClipIds "S" [⟨"a", 2, 0, 2⟩, ⟨"b", 1, 0, 3⟩] = [("a", "S-a-0"), ("b", "S-b-1")]
    ∧ (buildStartFor [] "S" [⟨"a", 2, 0, 2⟩, ⟨"b", 1, 0, 3⟩]).lookup "b" = some 0
    ∧ (computeVisualStartTimes [] "S" [⟨"a", 2, 0, 2⟩, ⟨"b", 1, 0, 3⟩]).lookup "S-b-1"
        = some 2 := by
  refine ⟨?_, ?_, ?_, ?_⟩
  · norm_num [buildClipIds, sortShots, insShot, keyLE, shotKey, clipId]
    decide
  · decide
  · norm_num [buildStartFor, sortShots, insShot, keyLE, shotKey, clipId,
      computeVisualStartTimes, pySideGo, List.lookup]
    decide
  · norm_num [computeVisualStartTimes, pySideGo, clipId, List.lookup]
    decide

/-! ## C2: the two `_compute_visual_start_times` variants vs. the reference -/

/-- The PySide resolver loop is exactly the reference algorithm's loop. -/
lemma pySideGo_eq_referenceGo (ov : List (String × ℚ)) (segId : String)
    (shots : List Shot) : ∀ idx cur,
    pySideGo ov segId idx cur shots = referenceGo ov segId idx cur shots := by
  induction shots with
  | nil => intro idx cur; rfl
  | cons sh rest ih =>
    intro idx cur
    simp only [pySideGo, referenceGo]
    cases h : ov.lookup (clipId segId sh.id idx) <;>
      simp [Option.getD, h, ih]

/-- Claim C2: both GUI variants return exactly the reference resolver's map.
The PySide variant does (first conjunct, for every input).  The tkinter
variant does not: its cursor update is `max(current, start) + duration`
instead of `max(current_end, start + duration)`, so for segment `"S"` with
shots `a (dur 5)`, `b (dur 2)`, `c (dur 3)` and an override `1.0` on
`"S-b-1"`, the tkinter variant assigns `c` the start `7.0` while the
reference (and hence PySide) assigns `5.0`. -/
theorem c2_tk_variant_diverges_from_reference :
    (∀ (ov : List (String × ℚ)) (segId : String) (shots : List Shot),
        computeVisualStartTimes ov segId shots = referenceStartTimes ov segId shots)
    ∧ (computeVisualStartTimesTk [("S-b-1", 1)] "S"
          [⟨"a", 0, 0, 5⟩, ⟨"b", 0, 0, 2⟩, ⟨"c", 0, 0, 3⟩]).lookup "S-c-2" = some 7
    ∧ (referenceStartTimes [("S-b-1", 1)] "S"
          [⟨"a", 0, 0, 5⟩, ⟨"b", 0, 0, 2⟩, ⟨"c", 0, 0, 3⟩]).lookup "S-c-2" = some 5 := by
  refine ⟨fun ov segId shots => pySideGo_eq_referenceGo ov segId shots 0 0, ?_, ?_⟩
  · norm_num [computeVisualStartTimesTk, tkGo, List.lookup,
      show clipId "S" "a" 0 = "S-a-0" from rfl,
      show clipId "S" "b" 1 = "S-b-1" from rfl,
      show clipId "S" "c" 2 = "S-c-2" from rfl,
      show (("S-a-0" : String) == "S-b-1") = false from rfl,
      show (("S-c-2" : String) == "S-b-1") = false from rfl,
      show (("S-c-2" : String) == "S-a-0") = false from rfl,
      show (("S-c-2" : String) == "S-c-2") = true from rfl]
  · norm_num [referenceStartTimes, referenceGo, List.lookup,
      show clipId "S" "a" 0 = "S-a-0" from rfl,
      show clipId "S" "b" 1 = "S-b-1" from rfl,
      show clipId "S" "c" 2 = "S-c-2" from rfl,
      show (("S-a-0" : String) == "S-b-1") = false from rfl,
      show (("S-c-2" : String) == "S-b-1") = false from rfl,
      show (("S-c-2" : String) == "S-a-0") = false from rfl,
      show (("S-c-2" : String) == "S-c-2") = true from rfl]

/-! ## C3: start-time monotonicity without overrides -/

/-- Every start produced by the cursor scan is at least the initial cursor. -/
lemma seqStarts_getD_ge (ds : List ℚ) : ∀ (cur : ℚ) (k : ℕ), k < ds.length →
    cur ≤ (seqStarts cur ds).getD k 0 := by
  induction ds with
  | nil => intro cur k hk; exact absurd hk (by simp)
  | cons d ds ih =>
    intro cur k hk
    cases k with
    | zero => simp [seqStarts]
    | succ k =>
      have hk' : k < ds.length := by simpa using hk
      calc cur ≤ max cur (cur + d) := le_max_left _ _
        _ ≤ (seqStarts (max cur (cur + d)) ds).getD k 0 := ih _ k hk'
        _ = (seqStarts cur (d :: ds)).getD (k + 1) 0 := by simp [seqStarts]

/-- Monotonicity of the cursor scan: a later start is at least an earlier
start plus the earlier duration, for arbitrary (also negative) durations. -/
lemma seqStarts_mono (ds : List ℚ) : ∀ (cur : ℚ) (i j : ℕ), i < j → j < ds.length →
    (seqStarts cur ds).getD i 0 + ds.getD i 0 ≤ (seqStarts cur ds).getD j 0 := by
  induction ds with
  | nil => intro cur i j _ hj; exact absurd hj (by simp)
  | cons d ds ih =>
    intro cur i j hij hj
    cases i with
    | zero =>
      obtain ⟨k, rfl⟩ : ∃ k, j = k + 1 := ⟨j - 1, by omega⟩
      have hk : k < ds.length := by simpa using hj
      calc (seqStarts cur (d :: ds)).getD 0 0 + (d :: ds).getD 0 0
          = cur + d := by simp [seqStarts]
        _ ≤ max cur (cur + d) := le_max_right _ _
        _ ≤ (seqStarts (max cur (cur + d)) ds).getD k 0 := seqStarts_getD_ge ds _ k hk
        _ = (seqStarts cur (d :: ds)).getD (k + 1) 0 := by simp [seqStarts]
    | succ i =>
      obtain ⟨k, rfl⟩ : ∃ k, j = k + 1 := ⟨j - 1, by omega⟩
      have := ih (max cur (cur + d)) i k (by omega) (by simpa using hj)
      simpa [seqStarts] using this

/-- With no overrides, the PySide resolver's start values are the cursor scan
of the raw durations. -/
lemma pySideGo_nil_values (segId : String) (shots : List Shot) : ∀ (idx : ℕ) (cur : ℚ),
    (pySideGo [] segId idx cur shots).map Prod.snd
      = seqStarts cur (shots.map Shot.duration) := by
  induction shots with
  | nil => intro idx cur; rfl
  | cons sh rest ih =>
    intro idx cur
    simp [pySideGo, seqStarts, ih]

/-- Claim C3: with no overrides, for raw indices `i < j` the start resolved for
shot `j` is at least the start for shot `i` plus shot `i`'s duration, for
arbitrary durations.  This holds for the PySide resolver (first conjunct, all
inputs).  It fails for the tkinter resolver: with durations `1, -1, 0` the
third shot resolves to `0.0`, below first start `0.0` plus first duration
`1.0` (second conjunct). -/
theorem c3_monotonicity_pyside_fails_tk :
    (∀ (segId : String) (shots : List Shot) (i j : ℕ), i < j → j < shots.length →
        ((computeVisualStartTimes [] segId shots).map Prod.snd).getD i 0
            + (shots.map Shot.duration).getD i 0
          ≤ ((computeVisualStartTimes [] segId shots).map Prod.snd).getD j 0)
    ∧ ¬ (((computeVisualStartTimesTk [] "S"
            [⟨"a", 0, 0, 1⟩, ⟨"b", 0, 0, -1⟩, ⟨"c", 0, 0, 0⟩]).map Prod.snd).getD 0 0
          + ([⟨"a", 0, 0, 1⟩, ⟨"b", 0, 0, -1⟩, (⟨"c", 0, 0, 0⟩ : Shot)].map
              Shot.duration).getD 0 0
        ≤ ((computeVisualStartTimesTk [] "S"
            [⟨"a", 0, 0, 1⟩, ⟨"b", 0, 0, -1⟩, ⟨"c", 0, 0, 0⟩]).map Prod.snd).getD 2 0) := by
  constructor
  · intro segId shots i j hij hj
    rw [computeVisualStartTimes, pySideGo_nil_values]
    exact seqStarts_mono (shots.map Shot.duration) 0 i j hij (by simpa using hj)
  · norm_num [computeVisualStartTimesTk, tkGo]

/-- Witness for C3's universally quantified conjunct at a concrete segment. -/
theorem c3_monotonicity_witness :
    ((computeVisualStartTimes [] "W" [⟨"a", 0, 0, 2⟩, ⟨"b", 0, 0, 3⟩]).map Prod.snd).getD 0 0
        + ([⟨"a", 0, 0, 2⟩, (⟨"b", 0, 0, 3⟩ : Shot)].map Shot.duration).getD 0 0
      ≤ ((computeVisualStartTimes [] "W"
          [⟨"a", 0, 0, 2⟩, ⟨"b", 0, 0, 3⟩]).map Prod.snd).getD 1 0 :=
  c3_monotonicity_pyside_fails_tk.1 "W" [⟨"a", 0, 0, 2⟩, ⟨"b", 0, 0, 3⟩] 0 1
    (by norm_num) (by norm_num)

/-! ## C4: validity of the frame range handed to the host -/

/-- A frame rate of at least 1 truncates to at least 1 frame. -/
lemma one_le_pyTrunc {fps : ℚ} (h : 1 ≤ fps) : (1 : ℤ) ≤ pyTrunc fps := by
  rw [pyTrunc, if_pos (le_trans zero_le_one h)]
  exact Int.le_floor.mpr (by exact_mod_cast h)

/-- Amended claim C4: whenever the parsed timeline frame rate is at least 1,
every call reaches the host placement primitives with
`end_frame > start_frame` and `end_frame - start_frame ≥ 1`, for every input
`duration_seconds` (zero or negative included), every offset and record time,
every timeline start frame, and every reported source duration.  (The
unrestricted claim is refuted by `c4_small_fps_counterexample`.) -/
theorem c4_frame_range_valid (fps recS durS offS : ℚ) (tlStart : ℤ)
    (clipDur : Option ℤ) (hfps : 1 ≤ fps) :
    (placeFrames fps recS durS offS tlStart clipDur).startF
        < (placeFrames fps recS durS offS tlStart clipDur).endF
    ∧ 1 ≤ (placeFrames fps recS durS offS tlStart clipDur).endF
        - (placeFrames fps recS durS offS tlStart clipDur).startF := by
  have htr : (1 : ℤ) ≤ pyTrunc fps := one_le_pyTrunc hfps
  have key : (placeFrames fps recS durS offS tlStart clipDur).startF
      < (placeFrames fps recS durS offS tlStart clipDur).endF := by
    rw [placeFrames]
    set df := max 1 (pyRound ((if durS < 1/10 then 1 else durS) * fps)) with hdf
    have hdf1 : (1 : ℤ) ≤ df := le_max_left 1 _
    set s := max 0 (pyRound (offS * fps)) with hs
    have hinit : initFrames fps recS durS offS tlStart
        = ⟨max 0 (pyRound (recS * fps)) + tlStart, s, s + df, df⟩ := by
      rw [initFrames]
      exact if_neg (by omega)
    rw [hinit]
    cases clipDur with
    | none =>
      simp only [clampFrames, finalFrames]
      rw [if_neg (by omega)]
      dsimp only
      omega
    | some d =>
      simp only [clampFrames]
      by_cases hd : d = 0
      · rw [if_pos hd]
        simp only [finalFrames]
        rw [if_neg (by omega)]
        dsimp only
        omega
      · rw [if_neg hd]
        by_cases hclamp : (if d < s + df then d else s + df) ≤ s
        · rw [if_pos hclamp]
          simp only [finalFrames]
          have he : (1 : ℤ) ≤ max (pyTrunc fps) (min d (pyTrunc (fps * 3))) :=
            le_trans htr (le_max_left _ _)
          rw [if_neg (by omega)]
          dsimp only
          omega
        · rw [if_neg hclamp]
          simp only [finalFrames]
          rw [if_neg (by omega)]
          dsimp only
          by_cases hlt : d < s + df
          · rw [if_pos hlt] at hclamp ⊢; omega
          · rw [if_neg hlt] at hclamp ⊢; omega
  exact ⟨key, by omega⟩

/-- Counterexample to C4 as stated ("whatever the host reports for frame
rate … and media source duration"): a host reporting frame rate `0.25` and a
source duration that parses to `10` frames drives the final validation to
`start_frame = end_frame = 0` (because `int(fps) = 0`), so the range invariant
is violated at the first host placement call. -/
theorem c4_small_fps_counterexample :
    ¬ ((placeFrames (1/4) 0 2 100 0 (some 10)).startF
        < (placeFrames (1/4) 0 2 100 0 (some 10)).endF) := by
  norm_num [placeFrames, initFrames, clampFrames, finalFrames, pyRound, pyTrunc]

/-- Witness for C4 at the frame rate 24 and the Scenario C inputs. -/
theorem c4_frame_range_valid_witness :
    (placeFrames 24 5 0 0 86400 none).startF < (placeFrames 24 5 0 0 86400 none).endF
    ∧ 1 ≤ (placeFrames 24 5 0 0 86400 none).endF
        - (placeFrames 24 5 0 0 86400 none).startF :=
  c4_frame_range_valid 24 5 0 0 86400 none (by norm_num)

/-! ## C5: placement arithmetic with the timeline start offset -/

/-- Amended claim C5: the initially computed frames (before source-duration
clamping) satisfy
`record_frame = max(0, round(record_seconds*fps)) + timeline_start_frame`,
`start_frame = max(0, round(offset_seconds*fps))`, and — after the 1.0-second
floor replaces any `duration_seconds < 0.1` —
`duration_frames = max(1, round(duration_seconds*fps))`, with
`end_frame = start_frame + duration_frames`; and in Scenario C
(`record_seconds=5, duration_seconds=0, offset_seconds=0, fps=24,
timeline_start_frame=86400`, no readable source duration) the final values
satisfy `duration_frames = 24 ≥ 24` and `record_frame = 86400 + 120`. -/
theorem c5_placement_arithmetic :
    (∀ (fps recS durS offS : ℚ) (tlStart : ℤ),
        (initFrames fps recS durS offS tlStart).record
            = max 0 (pyRound (recS * fps)) + tlStart
        ∧ (initFrames fps recS durS offS tlStart).startF = max 0 (pyRound (offS * fps))
        ∧ (initFrames fps recS durS offS tlStart).durF
            = max 1 (pyRound ((if durS < 1/10 then 1 else durS) * fps))
        ∧ (initFrames fps recS durS offS tlStart).endF
            = (initFrames fps recS durS offS tlStart).startF
              + (initFrames fps recS durS offS tlStart).durF)
    ∧ 24 ≤ (placeFrames 24 5 0 0 86400 none).durF
    ∧ (placeFrames 24 5 0 0 86400 none).record = 86400 + 120 := by
  refine ⟨fun fps recS durS offS tlStart => ?_, ?_, ?_⟩
  · have hinit : initFrames fps recS durS offS tlStart
        = ⟨max 0 (pyRound (recS * fps)) + tlStart, max 0 (pyRound (offS * fps)),
            max 0 (pyRound (offS * fps))
              + max 1 (pyRound ((if durS < 1/10 then 1 else durS) * fps)),
            max 1 (pyRound ((if durS < 1/10 then 1 else durS) * fps))⟩ := by
      rw [initFrames]
      have h1 : (1 : ℤ) ≤ max 1 (pyRound ((if durS < 1/10 then 1 else durS) * fps)) :=
        le_max_left 1 _
      exact if_neg (by omega)
    rw [hinit]
    exact ⟨rfl, rfl, rfl, rfl⟩
  · norm_num [placeFrames, initFrames, clampFrames, finalFrames, pyRound, pyTrunc]
  · norm_num [placeFrames, initFrames, clampFrames, finalFrames, pyRound, pyTrunc]

/-- Counterexample to C5 as stated: the claim's unconditional formula
`duration_frames = max(1, round(duration_seconds * fps))` uses the raw input
`duration_seconds`; at Scenario C's own inputs (`duration_seconds = 0`) it
yields `1`, but the engine (which first replaces the too-small duration by
1.0 s) emits `24`. -/
theorem c5_raw_duration_formula_false :
    (placeFrames 24 5 0 0 86400 none).durF ≠ max 1 (pyRound (0 * 24)) := by
  norm_num [placeFrames, initFrames, clampFrames, finalFrames, pyRound, pyTrunc]

/-! ## C6: record time used by the Build loop -/

/-- The Build loop's overlap scan equals its spec-side description: the first
fully readable overlapping item on track 1 determines the record time,
otherwise the resolver's start is kept. -/
lemma overlapAdjustGo_eq_spec (ts te tlStart : ℤ) (fps startSec : ℚ) :
    ∀ existing : List ExistingItem,
      overlapAdjustGo ts te tlStart fps startSec existing
        = match existing.find? (overlapHit ts te) with
          | some (_, some ee) => ((ee : ℚ) - tlStart) / fps
          | _ => startSec := by
  intro existing
  induction existing with
  | nil => rfl
  | cons it rest ih =>
    obtain ⟨exS, exE⟩ := it
    cases exS with
    | none =>
      have hh : overlapHit ts te (none, exE) = false := by cases exE <;> rfl
      rw [overlapAdjustGo, ih]
      · rw [List.find?_cons_of_neg _ (by simp [hh])]
      · exact fun _ _ h _ => Option.noConfusion h
    | some es =>
      cases exE with
      | none =>
        have hh : overlapHit ts te (some es, none) = false := rfl
        rw [overlapAdjustGo, ih]
        · rw [List.find?_cons_of_neg _ (by simp [hh])]
        · exact fun _ _ _ h => Option.noConfusion h
      | some ee =>
        by_cases h : ¬(te ≤ es ∨ ee ≤ ts)
        · rw [overlapAdjustGo, if_pos h,
            List.find?_cons_of_pos _ (by simp [overlapHit]; omega)]
        · rw [overlapAdjustGo, if_neg h, ih,
            List.find?_cons_of_neg _ (by simp [overlapHit]; omega)]

/-- Amended claim C6: the record time passed to the Placement Engine equals
the shot's resolved start time unless the target frame range overlaps an item
already on video track 1 with readable start/end; on the first such overlap —
whether or not the shot's start came from an override — the record time is
moved to that item's end, `(ex_end - timeline_start_frame) / fps`.  (The
claim's "shots with overrides may overlap anything" is refuted by
`c6_override_gets_moved`.) -/
theorem c6_record_time_spec :
    (∀ (startSec durSec fps : ℚ) (tlStart : ℤ) (existing : List ExistingItem),
        buildRecordSeconds startSec durSec fps tlStart existing
          = buildRecordSecondsSpec startSec durSec fps tlStart existing)
    ∧ (∀ (startSec durSec fps : ℚ) (tlStart : ℤ),
        buildRecordSeconds startSec durSec fps tlStart [] = startSec) := by
  constructor
  · intro startSec durSec fps tlStart existing
    rw [buildRecordSeconds, buildRecordSecondsSpec, overlapAdjustGo_eq_spec]
  · intro startSec durSec fps tlStart
    rfl

/-- Counterexample to C6 as stated: with an item occupying frames 0–100 on
track 1 (fps 24, zero timeline offset), a shot whose override resolved it to
start `2.0 s` (frames 48–72, inside the existing item) is *not* placed at its
override start: the Build loop moves it to `100/24 s`. -/
theorem c6_override_gets_moved :
    buildRecordSeconds 2 1 24 0 [(some 0, some 100)] ≠ 2 := by
  norm_num [buildRecordSeconds, overlapAdjustGo, pyRound]

/-! ## C7: subtitle timing round-trip -/

/-- Claim C7: for relative start 10.0 s and duration 3.0 s on a 24 fps
timeline starting at `01:00:00:00` (`tl_start_sec = 3600`), composing the
conversion of the import direction (`to_srt_time`, adding the offset, truncating
to milliseconds) with the export conversion reproduces both values within one
frame.  The host's placement of the imported SRT cue is out of repository
scope and is captured by the hypotheses: the cue's start/end frames land
within one frame of the SRT timestamps times fps. -/
theorem c7_subtitle_roundtrip (sf ef : ℤ)
    (hsf : |(sf : ℚ) - srtValue (toSrtParts 10 3600) * 24| < 1)
    (hef : |(ef : ℚ) - srtValue (toSrtParts (10 + 3) 3600) * 24| < 1) :
    |exportRelStart sf 3600 24 - 10| ≤ 1/24
    ∧ |exportDurSec (ef - sf) 24 - 3| ≤ 1/24 := by
  have h1 : srtValue (toSrtParts 10 3600) = 3610 := by
    norm_num [toSrtParts, srtValue, pyFloorDiv, pyMod, pyTrunc]
  have h2 : srtValue (toSrtParts (10 + 3) 3600) = 3613 := by
    norm_num [toSrtParts, srtValue, pyFloorDiv, pyMod, pyTrunc]
  rw [h1] at hsf
  rw [h2] at hef
  have hsf' : sf = 86640 := by
    have hc : |((sf - 86640 : ℤ) : ℚ)| < 1 := by push_cast; convert hsf using 2; norm_num
    have h3 : |sf - 86640| < 1 := by exact_mod_cast hc
    have h4 := abs_lt.mp h3
    omega
  have hef' : ef = 86712 := by
    have hc : |((ef - 86712 : ℤ) : ℚ)| < 1 := by push_cast; convert hef using 2; norm_num
    have h3 : |ef - 86712| < 1 := by exact_mod_cast hc
    have h4 := abs_lt.mp h3
    omega
  subst hsf' hef'
  constructor
  · norm_num [exportRelStart, pyTrunc]
  · norm_num [exportDurSec]

/-- Witness for C7 at the exact host frames `86640` and `86712`. -/
theorem c7_subtitle_roundtrip_witness :
    |exportRelStart 86640 3600 24 - 10| ≤ 1/24
    ∧ |exportDurSec ((86712 : ℤ) - 86640) 24 - 3| ≤ 1/24 :=
  c7_subtitle_roundtrip 86640 86712
    (by norm_num [toSrtParts, srtValue, pyFloorDiv, pyMod, pyTrunc])
    (by norm_num [toSrtParts, srtValue, pyFloorDiv, pyMod, pyTrunc])

/-! ## C8: take-code parsing -/

/-- Claim C8: Scenario D parses as specified, and in general a text in which
the take pattern is found yields the uppercased captured code together with the
text with the bracketed code(s) and trailing separator removed and stripped,
while a text with no match yields `none` with the stripped original. -/
theorem c8_extract_take_and_visual :
    extractTakeAndVisual "[SC02T05] character enters frame"
        = (some "SC02T05", "character enters frame")
    ∧ (∀ (s t : String), findTake s.toList = some t →
        extractTakeAndVisual s
          = (some (String.mk (t.toList.map Char.toUpper)),
              String.mk (pyStrip (subAll s.toList.length s.toList))))
    ∧ (∀ s : String, findTake s.toList = none →
        extractTakeAndVisual s = (none, String.mk (pyStrip s.toList))) := by
  refine ⟨by decide, fun s t h => ?_, fun s h => ?_⟩
  · rw [extractTakeAndVisual, h]
  · rw [extractTakeAndVisual, h]

/-- Witness for C8's general clauses at concrete subtitle texts. -/
theorem c8_extract_witness :
    extractTakeAndVisual "sc03t04 - pan left"
        = (some (String.mk ("sc03t04".toList.map Char.toUpper)),
            String.mk (pyStrip (subAll "sc03t04 - pan left".toList.length
              "sc03t04 - pan left".toList)))
    ∧ extractTakeAndVisual "  no take here  "
        = (none, String.mk (pyStrip "  no take here  ".toList)) :=
  ⟨c8_extract_take_and_visual.2.1 "sc03t04 - pan left" "sc03t04" (by decide),
    c8_extract_take_and_visual.2.2 "  no take here  " (by decide)⟩

/-! ## C9: placement failure semantics -/

/-- Amended claim C9: provided the host answers coherently (calls on an absent
`MediaPool.AppendToTimeline` raise) and at least one of the three probed
placement methods exists (otherwise the call raises the distinct missing-API
error before trying any strategy), `resolve_place_on_timeline` raises if and
only if every strategy failed — but the raised error is the fixed string
`"All timeline placement methods failed."`, which does not name the track or
the desired position; and the Build orchestrator's per-shot `try/except`
processes every shot of the batch no matter how many placements fail. -/
theorem c9_failure_semantics :
    (∀ cfg : LadderCfg, cfg.Coherent →
        (cfg.mpAppendAvail || cfg.tlAppendAvail || cfg.insertClipsAvail) = true →
        (ladderFails (placeLadder 1 cfg) = true ↔ anySucceeded cfg = false))
    ∧ (∀ (α : Type) (shots : List α) (place : α → Except String Unit),
        (buildBatch place shots).1 = shots.length) := by
  constructor
  · intro cfg hcoh havail
    rw [placeLadder]
    have hnot : ¬ (!cfg.mpAppendAvail && !cfg.tlAppendAvail && !cfg.insertClipsAvail) = true := by
      intro h
      simp only [Bool.and_eq_true, Bool.not_eq_true'] at h
      rw [h.1.1, h.1.2, h.2] at havail
      simp at havail
    rw [if_neg hnot]
    by_cases h1 : dictOk cfg.d1 = true
    · simp [h1, ladderFails, anySucceeded]
    · rw [if_neg (by simpa using h1)]
      by_cases h2 : dictOk cfg.d2 = true
      · simp [h1, h2, ladderFails, anySucceeded]
      · rw [if_neg (by simpa using h2)]
        by_cases h3 : dictOk cfg.d3 = true
        · simp [h1, h2, h3, ladderFails, anySucceeded]
        · rw [if_neg (by simpa using h3)]
          by_cases h4 : dictOk cfg.d4 = true
          · simp [h1, h2, h3, h4, ladderFails, anySucceeded]
          · rw [if_neg (by simpa using h4)]
            by_cases h5 : insertClipOk cfg.ic = true
            · simp [h1, h2, h3, h4, h5, ladderFails, anySucceeded]
            · rw [if_neg (by simpa using h5)]
              by_cases h6 : (cfg.insertClipsAvail && listOk cfg.icl) = true
              · simp [h1, h2, h3, h4, h5, h6, ladderFails, anySucceeded]
              · rw [if_neg (by simpa using h6)]
                by_cases h7 : (cfg.tlAppendAvail && listOk cfg.tla) = true
                · simp [h1, h2, h3, h4, h5, h6, h7, ladderFails, anySucceeded]
                · rw [if_neg (by simpa using h7)]
                  by_cases h8 : listOk cfg.fin = true
                  · simp [h1, h2, h3, h4, h5, h6, h7, h8, ladderFails, anySucceeded]
                  · rw [if_neg (by simpa using h8)]
                    simp [h1, h2, h3, h4, h5, h6, h7, h8, ladderFails, anySucceeded]
  · intro α shots place
    induction shots with
    | nil => rfl
    | cons sh rest ih =>
      rw [buildBatch]
      cases place sh <;> simp [ih]

/-- Counterexample to C9 as stated: when every strategy fails on a placement
targeting track 7, the raised error is the fixed message
`"All timeline placement methods failed."`, which does not name the track
(no `'7'` occurs in it) nor the desired position. -/
theorem c9_error_does_not_name_track :
    placeLadder 7
        ⟨true, true, true, ⟨false, true, none, none⟩, ⟨false, true, none, none⟩,
          ⟨false, true, none, none⟩, ⟨false, true, none, none⟩,
          ⟨true, false, false, false⟩, ⟨false, true, none, none⟩,
          ⟨false, true, none, none⟩, ⟨false, true, none, none⟩⟩
      = .error "All timeline placement methods failed."
    ∧ "All timeline placement methods failed.".toList.contains '7' = false := by
  exact ⟨rfl, by decide⟩

/-- Witness for C9's coherence/availability hypotheses at an all-fail host. -/
theorem c9_failure_semantics_witness :
    (ladderFails (placeLadder 1
        ⟨true, true, true, ⟨false, true, none, none⟩, ⟨false, true, none, none⟩,
          ⟨false, true, none, none⟩, ⟨false, true, none, none⟩,
          ⟨true, false, false, false⟩, ⟨false, true, none, none⟩,
          ⟨false, true, none, none⟩, ⟨false, true, none, none⟩⟩) = true
      ↔ anySucceeded
          ⟨true, true, true, ⟨false, true, none, none⟩, ⟨false, true, none, none⟩,
            ⟨false, true, none, none⟩, ⟨false, true, none, none⟩,
            ⟨true, false, false, false⟩, ⟨false, true, none, none⟩,
            ⟨false, true, none, none⟩, ⟨false, true, none, none⟩⟩ = false) :=
  c9_failure_semantics.1 _ (fun h => by simp at h) (by decide)

/-! ## C10: idempotent folder materialization -/

/-- A successful `find?` on a prefix survives appending. -/
lemma find?_append_some {α : Type} {l1 l2 : List α} {p : α → Bool} {r : α}
    (h : l1.find? p = some r) : (l1 ++ l2).find? p = some r := by
  induction l1 with
  | nil => simp at h
  | cons a l ih =>
    rw [List.cons_append]
    by_cases ha : p a = true
    · rw [List.find?_cons_of_pos _ ha] at h ⊢; exact h
    · rw [List.find?_cons_of_neg _ ha] at h ⊢; exact ih h

/-- A failed `find?` on a prefix defers to the appended suffix. -/
lemma find?_append_none {α : Type} {l1 : List α} {p : α → Bool}
    (h : l1.find? p = none) (l2 : List α) : (l1 ++ l2).find? p = l2.find? p := by
  induction l1 with
  | nil => simp
  | cons a l ih =>
    rw [List.cons_append]
    by_cases ha : p a = true
    · rw [List.find?_cons_of_pos _ ha] at h; exact absurd h (by simp)
    · rw [List.find?_cons_of_neg _ ha] at h ⊢; exact ih h

/-- When the name is already present, `find_or_create` returns the existing
handle and leaves the pool untouched. -/
lemma foc_of_found {p : Pool} {parent : ℕ} {name : String} {r : FolderRec}
    (h : (subFoldersOf p parent).find? (fun x => x.name == name) = some r) :
    findOrCreate p parent name = (p, r.id) := by
  unfold findOrCreate
  rw [h]

/-- `find_or_create` only ever appends folder records. -/
lemma findOrCreate_extends (p : Pool) (parent : ℕ) (name : String) :
    ∃ l n, (findOrCreate p parent name).1 = ⟨p.folders ++ l, n⟩ := by
  unfold findOrCreate
  cases h : (subFoldersOf p parent).find? (fun x => x.name == name) with
  | some r => exact ⟨[], p.next, by cases p; simp⟩
  | none => exact ⟨[⟨parent, name, p.next⟩], p.next + 1, rfl⟩

/-- After `find_or_create`, the requested name is findable under the parent,
and the first hit carries the returned handle. -/
lemma findOrCreate_found (p : Pool) (parent : ℕ) (name : String) :
    ∃ r : FolderRec,
      (subFoldersOf (findOrCreate p parent name).1 parent).find? (fun x => x.name == name)
          = some r
      ∧ r.id = (findOrCreate p parent name).2 := by
  cases h : (subFoldersOf p parent).find? (fun x => x.name == name) with
  | some r =>
    refine ⟨r, ?_, ?_⟩
    · rw [foc_of_found h]; exact h
    · rw [foc_of_found h]
  | none =>
    have hfc : findOrCreate p parent name
        = (⟨p.folders ++ [⟨parent, name, p.next⟩], p.next + 1⟩, p.next) := by
      unfold findOrCreate
      rw [h]
      rfl
    refine ⟨⟨parent, name, p.next⟩, ?_, by rw [hfc]⟩
    rw [hfc]
    show ((p.folders ++ [(⟨parent, name, p.next⟩ : FolderRec)]).filter
        (fun r : FolderRec => r.parent == parent)).find?
          (fun x : FolderRec => x.name == name) = _
    rw [List.filter_append]
    have hone : List.filter (fun r : FolderRec => r.parent == parent)
        [(⟨parent, name, p.next⟩ : FolderRec)] = [⟨parent, name, p.next⟩] := by simp
    rw [hone, find?_append_none (by simpa [subFoldersOf] using h)]
    simp

/-- One level of idempotence: once `find_or_create` has run against pool `p`,
any pool extending its result by appended records answers the same
`find_or_create` with the same handle and no state change. -/
lemma foc_idem_after (p P : Pool) (parent : ℕ) (name : String)
    (hP : ∃ l n, P = ⟨(findOrCreate p parent name).1.folders ++ l, n⟩) :
    findOrCreate P parent name = (P, (findOrCreate p parent name).2) := by
  obtain ⟨l, n, rfl⟩ := hP
  obtain ⟨r, hf, hid⟩ := findOrCreate_found p parent name
  have hf' : (subFoldersOf ⟨(findOrCreate p parent name).1.folders ++ l, n⟩ parent).find?
      (fun x => x.name == name) = some r := by
    rw [subFoldersOf] at hf ⊢
    rw [List.filter_append]
    exact find?_append_some hf
  rw [foc_of_found hf', hid]

/-- Unfolded form of `ensureBins`. -/
lemma ensureBins_unfold (q : Pool) (rootName segName takeName : String) :
    ensureBins q rootName segName takeName
      = findOrCreate
          (findOrCreate (findOrCreate q 0 rootName).1 (findOrCreate q 0 rootName).2 segName).1
          (findOrCreate (findOrCreate q 0 rootName).1 (findOrCreate q 0 rootName).2 segName).2
          takeName := rfl

/-- Claim C10: for a media pool whose `GetSubFolderList` reflects prior
`AddSubFolder` calls (which is what the `Pool` state embodies), running
`resolve_ensure_bins` twice with identical arguments returns the same take
folder handle and creates no folder at any of the three levels: the second
run leaves the pool exactly as the first run left it. -/
theorem c10_ensure_bins_idempotent (p : Pool) (rootName segName takeName : String) :
    ensureBins (ensureBins p rootName segName takeName).1 rootName segName takeName
      = ensureBins p rootName segName takeName := by
  rw [ensureBins_unfold p, ensureBins_unfold]
  set F1 := findOrCreate p 0 rootName with hF1
  set F2 := findOrCreate F1.1 F1.2 segName with hF2
  set F3 := findOrCreate F2.1 F2.2 takeName with hF3
  obtain ⟨l2, n2, he2⟩ := findOrCreate_extends F1.1 F1.2 segName
  obtain ⟨l3, n3, he3⟩ := findOrCreate_extends F2.1 F2.2 takeName
  rw [← hF2] at he2
  rw [← hF3] at he3
  have s1 : findOrCreate F3.1 0 rootName = (F3.1, F1.2) := by
    have := foc_idem_after p F3.1 0 rootName
      ⟨l2 ++ l3, n3, by rw [he3, he2, ← hF1]; simp [List.append_assoc]⟩
    rw [this, ← hF1]
  have s2 : findOrCreate F3.1 F1.2 segName = (F3.1, F2.2) := by
    have := foc_idem_after F1.1 F3.1 F1.2 segName ⟨l3, n3, by rw [he3, ← hF2]⟩
    rw [this, ← hF2]
  have s3 : findOrCreate F3.1 F2.2 takeName = (F3.1, F3.2) := by
    have := foc_idem_after F2.1 F3.1 F2.2 takeName
      ⟨[], F3.1.next, by rw [← hF3, List.append_nil]⟩
    rw [this, ← hF3]
  rw [s1]
  dsimp only
  rw [s2]
  dsimp only
  rw [s3]

end Concepto
